import Mathlib

/-!
Verification development for the pyMEGAcmd repository: a shallow embedding
of the wrapper around the MEGAcmd command-line client (src/lib/pyMEGAcmd.py,
src/lib/helper.py, src/pyMEGAcmd.py) together with theorems settling the
specification claims.

Python strings are modelled as Lean `String`s (operated on as `List Char`),
machine integers as `Int`/`Nat`, the external subprocess as an oracle
function, and Python exceptions as `Except` errors.  Each regular expression
of the source is embedded as the deterministic first-match parser it denotes
on its pattern (the patterns use character classes disjoint from the
literals that follow them, so greedy matching is maximal-munch; the one
genuinely backtracking construct, a leading `(.+) `, is embedded by a
longest-split search).
-/

namespace PyMEGAcmd

/-- Whitespace characters stripped by Python's `str.strip()` (ASCII part). -/
def pySpaceChars : List Char := [' ', '\t', '\n', '\r', Char.ofNat 11, Char.ofNat 12]

/-- Membership test for a character set, used by the strip helpers. -/
def memChars (cs : List Char) (c : Char) : Bool := c ∈ cs

/-- Python `str.lstrip(chars)`: drop the longest leading run of characters
from `cs`, on the character-list representation. -/
def lstripChars (cs : List Char) (l : List Char) : List Char :=
  l.dropWhile (memChars cs)

/-- Python `str.rstrip(chars)`: drop the longest trailing run of characters
from `cs`, on the character-list representation. -/
def rstripChars (cs : List Char) : List Char → List Char
  | [] => []
  | a :: t =>
    let r := rstripChars cs t
    if r = [] ∧ memChars cs a then [] else a :: r

/-- Python `str.strip()` with no argument (whitespace at both ends). -/
def pyStrip (s : String) : String :=
  ⟨rstripChars pySpaceChars (lstripChars pySpaceChars s.toList)⟩

/-- Python slicing `s[a:b]` on a string (character offsets, clamped). -/
def pySlice (s : String) (a b : Nat) : String :=
  ⟨(s.toList.drop a).take (b - a)⟩

/-- Python slicing `s[a:]` on a string. -/
def pySliceFrom (s : String) (a : Nat) : String :=
  ⟨s.toList.drop a⟩

/-- Python `s.endswith(c)` for a one-character suffix: the last character
equals `c`. -/
def pyEndsWithChar (s : String) (c : Char) : Bool :=
  s.toList.getLast? = some c

/-- Split a character list on a separator character; the pieces keep their
order and the separators are dropped.  An empty input yields one empty
piece, as for Python's `str.split`. -/
def splitOnChar (c : Char) : List Char → List (List Char)
  | [] => [[]]
  | a :: rest =>
    let r := splitOnChar c rest
    if a = c then [] :: r
    else
      match r with
      | [] => [[a]]
      | h :: t => (a :: h) :: t

/-- Python `str.splitlines()` with `\n` as the line separator: empty string
gives no lines, and a trailing newline does not produce a final empty
line. -/
def pySplitlines (s : String) : List String :=
  if s.toList = [] then []
  else
    (if s.toList.getLast? = some '\n' then (splitOnChar '\n' s.toList).dropLast
     else splitOnChar '\n' s.toList).map (fun l => ⟨l⟩)

/-- Truthiness of a Python `Optional[str]`: `None` and the empty string are
falsy, every other string is truthy. -/
def pyTruthyStr (o : Option String) : Bool :=
  match o with
  | none => false
  | some s => s ≠ ""

/-- Source helper.clean_remote_path: lstrip of `" \n"`, removal of a
leading `"./"`, and an optional trailing slash. -/
def clean_remote_path (remote_path : String) (ensure_trailing_slash : Bool := false) :
    String :=
  let p : String := ⟨lstripChars [' ', '\n'] remote_path.toList⟩
  let p : String := if "./".toList.isPrefixOf p.toList then ⟨p.toList.drop 2⟩ else p
  if ensure_trailing_slash ∧ ¬ pyEndsWithChar p '/' then p ++ "/" else p

/-- Source helper.clean_local_path: lstrip of `" \n"`, rstrip of `"/"`, and
an optional trailing slash. -/
def clean_local_path (local_path : String) (ensure_trailing_slash : Bool := false) :
    String :=
  let p : List Char := lstripChars [' ', '\n'] local_path.toList
  let p : List Char := rstripChars ['/'] p
  if ensure_trailing_slash ∧ ¬ pyEndsWithChar ⟨p⟩ '/' then ⟨p⟩ ++ "/" else ⟨p⟩

/-- Core of clean_local_path before the trailing-slash branch: lstrip of
space and newline followed by rstrip of slashes. -/
def cleanCore (p : List Char) : List Char :=
  rstripChars ['/'] (lstripChars [' ', '\n'] p)

/-! Regex-parser primitives.  Each pattern of the source is embedded as a
deterministic parser; `span1` models a greedy one-or-more character-class
group whose class is disjoint from what follows, and `stripPre` models a
literal. -/

/-- Greedy `X+` for a character class `p`: the maximal nonempty run
satisfying `p` together with the remainder, or `none` when the first
character already fails. -/
def span1 (p : Char → Bool) (l : List Char) : Option (List Char × List Char) :=
  let t := l.takeWhile p
  if t = [] then none else some (t, l.dropWhile p)

/-- Literal-prefix matcher: consumes `pre` from the front or fails. -/
def stripPre (pre l : List Char) : Option (List Char) :=
  if pre.isPrefixOf l then some (l.drop pre.length) else none

/-- Value of a nonempty digit run, as Python's `int()` computes it. -/
def digitsToNat (l : List Char) : Nat :=
  l.foldl (fun n c => 10 * n + (c.toNat - '0'.toNat)) 0

/-- Python's `float()` on a string made of digits and dots (the only strings
the source feeds it, via the `[\d\.]+` group), modelled exactly as a
rational: rejects the empty string, a lone dot and more than one dot, as
`float()` raises ValueError there. -/
def pyFloat (s : String) : Option ℚ :=
  match s.toList.splitOn '.' with
  | [ip] => if ip = [] then none else some ((digitsToNat ip : ℚ))
  | [ip, fp] =>
    if ip = [] ∧ fp = [] then none
    else some ((digitsToNat ip : ℚ) + (digitsToNat fp : ℚ) / (10 : ℚ) ^ fp.length)
  | _ => none

/-- Python's `\s` character class (ASCII part). -/
def isPySpace (c : Char) : Bool := memChars pySpaceChars c

/-- Python's `\w` or `\d` or `:`, the class of the handle group
`[\w\d:]+` in the find patterns. -/
def wordColon (c : Char) : Bool := c.isAlphanum || c = '_' || c = ':'

/-! Data model: the record types of src/lib/pyMEGAcmd.py and the command
result triple of src/lib/helper.py. -/

/-- helper.CMDResult: captured stdout, stderr and exit code.  The runner
stores the stripped texts. -/
structure CMDResult where
  stdout : String
  stderr : String
  return_code : Int
deriving DecidableEq, Repr

/-- Raw output of `subprocess.run` before the runner strips it. -/
structure RawResult where
  stdout : String
  stderr : String
  returncode : Int
deriving DecidableEq, Repr

/-- Outcome of spawning the external binary: either the process ran to
completion with captured output and exit code, or the executable was not
found (Python's FileNotFoundError from `subprocess.run`). -/
inductive SpawnResult where
  | completed (r : RawResult)
  | fileNotFoundError
deriving DecidableEq, Repr

/-- The distinct exception sites of the wrapper, one constructor per raise
statement reachable in the embedded operations, carrying the dynamic data
interpolated into the Python message. -/
inductive MegaErr where
  | remotePathNotFound (res : CMDResult)
  | remotePathNotAFile (res : CMDResult)
  | unknownCatError (res : CMDResult)
  | failedChangeDirectory (stderr : String)
  | failedStorageUsage (stderr : String)
  | failedDiskUsage (stderr : String)
  | failedFind (stderr : String)
  | unexpectedFindLine (line : String)
  | failedListDirectory (stderr : String)
  | unexpectedExportListLine (line : String)
  | valueErrorLogin
  | assertionErrorLogin
  | fileNotFoundAt (path : String)
  | subprocessFileNotFound
  | floatValueError (s : String)
  | charIndexError
deriving DecidableEq, Repr

/-- MEGADirectoryEntry of src/lib/pyMEGAcmd.py. -/
structure MEGADirectoryEntry where
  name : String
  handle : String
  is_directory : Bool
  flags : Option String := none
  date : Option String := none
  size : Option String := none
  link : Option String := none
deriving DecidableEq, Repr

/-- MEGADiskFreeResult of src/lib/pyMEGAcmd.py; the percentage is the exact
rational float() produces on the matched text. -/
structure MEGADiskFreeResult where
  cloud_drive_used : Nat
  cloud_drive_files : Nat
  cloud_drive_folders : Nat
  inbox_used : Nat
  inbox_files : Nat
  inbox_folders : Nat
  rubbish_bin_used : Nat
  rubbish_bin_files : Nat
  rubbish_bin_folders : Nat
  total_used_storage : Nat
  used_storage_percentage : ℚ
  total_storage : Nat
  size_file_versions : Nat
deriving DecidableEq, Repr

/-- MEGAExportEntry of src/lib/pyMEGAcmd.py. -/
structure MEGAExportEntry where
  remote_path : String
  link : String
  size : Option String := none
  is_folder : Bool := false
  auth_token : Option String := none
deriving DecidableEq, Repr

/-- MEGADuEntry of src/lib/pyMEGAcmd.py. -/
structure MEGADuEntry where
  remote_path : String
  size : Nat
  size_with_versions : Nat
deriving DecidableEq, Repr

/-- MEGADuResult of src/lib/pyMEGAcmd.py. -/
structure MEGADuResult where
  entries : List MEGADuEntry
  size_total : Nat
  size_total_with_versions : Nat
deriving DecidableEq, Repr

/-! The df regexes (RE_DF_CLOUD, RE_DF_INBOX, RE_DF_BIN, RE_DF_TOTAL,
RE_DF_VERSIONS), used with `re.match` so they are anchored at the start and
may leave a remainder. -/

/-- Common shape `LITERAL\s+(\d+) in\s+(\d+) file\(s\) and\s+(\d+)
folder\(s\)` of the cloud/inbox/bin lines. -/
def matchDfArea (lit : String) (l : List Char) : Option (Nat × Nat × Nat) := do
  let r ← stripPre lit.toList l
  let (_, r) ← span1 isPySpace r
  let (d1, r) ← span1 Char.isDigit r
  let r ← stripPre " in".toList r
  let (_, r) ← span1 isPySpace r
  let (d2, r) ← span1 Char.isDigit r
  let r ← stripPre " file(s) and".toList r
  let (_, r) ← span1 isPySpace r
  let (d3, r) ← span1 Char.isDigit r
  let _ ← stripPre " folder(s)".toList r
  pure (digitsToNat d1, digitsToNat d2, digitsToNat d3)

/-- RE_DF_CLOUD. -/
def matchDfCloud (l : List Char) : Option (Nat × Nat × Nat) :=
  matchDfArea "Cloud drive:" l

/-- RE_DF_INBOX. -/
def matchDfInbox (l : List Char) : Option (Nat × Nat × Nat) :=
  matchDfArea "Inbox:" l

/-- RE_DF_BIN. -/
def matchDfBin (l : List Char) : Option (Nat × Nat × Nat) :=
  matchDfArea "Rubbish bin:" l

/-- RE_DF_TOTAL: `USED STORAGE:\s+(\d+)\s+([\d\.]+)% of\s+(\d+)`. -/
def matchDfTotal (l : List Char) : Option (Nat × String × Nat) := do
  let r ← stripPre "USED STORAGE:".toList l
  let (_, r) ← span1 isPySpace r
  let (d1, r) ← span1 Char.isDigit r
  let (_, r) ← span1 isPySpace r
  let (p, r) ← span1 (fun c => c.isDigit || c = '.') r
  let r ← stripPre "% of".toList r
  let (_, r) ← span1 isPySpace r
  let (d3, _) ← span1 Char.isDigit r
  pure (digitsToNat d1, ⟨p⟩, digitsToNat d3)

/-- RE_DF_VERSIONS: `Total size taken up by file versions:\s+(\d+)`. -/
def matchDfVersions (l : List Char) : Option Nat := do
  let r ← stripPre "Total size taken up by file versions:".toList l
  let (_, r) ← span1 isPySpace r
  let (d1, _) ← span1 Char.isDigit r
  pure (digitsToNat d1)

/-! The du regexes, anchored at both ends (`^...$`) and applied to the
stripped line. -/

/-- RE_DU_TOTAL: `^Total storage used:\s+(\d+)\s+(\d+)$`. -/
def matchDuTotal (l : List Char) : Option (Nat × Nat) := do
  let r ← stripPre "Total storage used:".toList l
  let (_, r) ← span1 isPySpace r
  let (d1, r) ← span1 Char.isDigit r
  let (_, r) ← span1 isPySpace r
  let (d2, r) ← span1 Char.isDigit r
  if r = [] then pure (digitsToNat d1, digitsToNat d2) else none

/-- RE_DU_ENTRY: `^([^:]+):\s+(\d+)\s+(\d+)$`. -/
def matchDuEntry (l : List Char) : Option (String × Nat × Nat) := do
  let (p, r) ← span1 (fun c => c ≠ ':') l
  let r ← stripPre [':'] r
  let (_, r) ← span1 isPySpace r
  let (d1, r) ← span1 Char.isDigit r
  let (_, r) ← span1 isPySpace r
  let (d2, r) ← span1 Char.isDigit r
  if r = [] then pure (⟨p⟩, digitsToNat d1, digitsToNat d2) else none

/-- The all-zero initial accumulator of cmd_df. -/
def zeroDf : MEGADiskFreeResult :=
  ⟨0, 0, 0, 0, 0, 0, 0, 0, 0, 0, 0, 0, 0⟩

/-- One loop iteration of cmd_df over a stdout line: each regex that
matches overwrites its fields, unmatched lines leave the accumulator
unchanged; float() on the percentage group may raise ValueError. -/
def dfStep (acc : MEGADiskFreeResult) (line : String) : Except MegaErr MEGADiskFreeResult :=
  let l := line.toList
  let acc := match matchDfCloud l with
    | some (a, b, c) =>
      { acc with cloud_drive_used := a, cloud_drive_files := b, cloud_drive_folders := c }
    | none => acc
  let acc := match matchDfInbox l with
    | some (a, b, c) =>
      { acc with inbox_used := a, inbox_files := b, inbox_folders := c }
    | none => acc
  let acc := match matchDfBin l with
    | some (a, b, c) =>
      { acc with rubbish_bin_used := a, rubbish_bin_files := b, rubbish_bin_folders := c }
    | none => acc
  let afterVersions := fun (acc : MEGADiskFreeResult) =>
    match matchDfVersions l with
    | some v => { acc with size_file_versions := v }
    | none => acc
  match matchDfTotal l with
  | some (a, ps, c) =>
    match pyFloat ps with
    | some q =>
      Except.ok (afterVersions
        { acc with total_used_storage := a, used_storage_percentage := q, total_storage := c })
    | none => Except.error (MegaErr.floatValueError ps)
  | none => Except.ok (afterVersions acc)

/-- Decoder of cmd_df: on exit code 0 fold the line matchers over the
stripped stdout starting from the all-zero record, otherwise raise. -/
def cmd_df_decode (res : CMDResult) : Except MegaErr MEGADiskFreeResult :=
  if res.return_code = 0 then
    (pySplitlines (pyStrip res.stdout)).foldlM dfStep zeroDf
  else Except.error (MegaErr.failedStorageUsage res.stderr)

/-- One loop iteration of cmd_du over a stripped stdout line: a total line
overwrites the totals, an entry line is appended, anything else is
skipped. -/
def duStep (acc : List MEGADuEntry × Nat × Nat) (line : String) :
    List MEGADuEntry × Nat × Nat :=
  let sline := pyStrip line
  match matchDuTotal sline.toList with
  | some (t1, t2) => (acc.1, t1, t2)
  | none =>
    match matchDuEntry sline.toList with
    | some (p, s, sv) => (acc.1 ++ [⟨p, s, sv⟩], acc.2)
    | none => acc

/-- Decoder of cmd_du: raise on nonzero exit, otherwise fold the two line
matchers over the stripped stdout. -/
def cmd_du_decode (res : CMDResult) : Except MegaErr MEGADuResult :=
  if res.return_code ≠ 0 then Except.error (MegaErr.failedDiskUsage res.stderr)
  else
    let r := (pySplitlines (pyStrip res.stdout)).foldl duStep ([], 0, 0)
    Except.ok ⟨r.1, r.2.1, r.2.2⟩

/-! Spec-side description of the cmd_du decoder, for the refinement theorem
of the disk-usage claim: the entries are the entry-matching lines in stdout
order (a line matching the total shape is not an entry), and the totals
come from the last total-matching line. -/

/-- Entry lines of a du report, in stdout order, excluding total lines. -/
def duEntriesSpec (lines : List String) : List MEGADuEntry :=
  lines.filterMap (fun line =>
    let sline := pyStrip line
    if (matchDuTotal sline.toList).isSome then none
    else (matchDuEntry sline.toList).map (fun t => ⟨t.1, t.2.1, t.2.2⟩))

/-- The parse of the last total-matching line of a du report, if any. -/
def lastDuTotal : List String → Option (Nat × Nat)
  | [] => none
  | l :: rest =>
    match lastDuTotal rest with
    | some t => some t
    | none => matchDuTotal (pyStrip l).toList

/-! Decoders of cmd_cat and cmd_cd: pure functions of the command result,
one branch per exit-code test of the source. -/

/-- Decoder of cmd_cat: stripped stdout on success, distinct raises for the
not-found (53) and not-a-file (51) exit codes, generic raise otherwise. -/
def cmd_cat_decode (res : CMDResult) : Except MegaErr String :=
  if res.return_code = 0 then Except.ok (pyStrip res.stdout)
  else if res.return_code = 53 then Except.error (MegaErr.remotePathNotFound res)
  else if res.return_code = 51 then Except.error (MegaErr.remotePathNotAFile res)
  else Except.error (MegaErr.unknownCatError res)

/-- Decoder of cmd_cd: True on exit 0, False on exit 53, raise otherwise. -/
def cmd_cd_decode (res : CMDResult) : Except MegaErr Bool :=
  if res.return_code = 0 then Except.ok true
  else if res.return_code = 53 then Except.ok false
  else Except.error (MegaErr.failedChangeDirectory res.stderr)

/-! The find regexes.  All four start with `^([^<]+) <([\w\d:]+)> \(`; the
first group runs to the character before the first `<`, which the literal
space must precede. -/

/-- Shared head `^([^<]+) <` of the find patterns: the name group and the
remainder after `<`. -/
def splitAtLt (l : List Char) : Option (List Char × List Char) :=
  let pre := l.takeWhile (fun c => c ≠ '<')
  match l.dropWhile (fun c => c ≠ '<') with
  | _ :: r2 =>
    match pre.getLast? with
    | some ' ' => if pre.dropLast = [] then none else some (pre.dropLast, r2)
    | _ => none
  | [] => none

/-- Shared head `^([^<]+) <([\w\d:]+)> \(` of the find patterns: name
group, handle group, and the remainder after the opening parenthesis. -/
def findCommon (l : List Char) : Option (List Char × List Char × List Char) := do
  let (g1, r2) ← splitAtLt l
  let (h, r3) ← span1 wordColon r2
  let r4 ← stripPre "> (".toList r3
  pure (g1, h, r4)

/-- RE_FIND_FOLDER: `^([^<]+) <([\w\d:]+)> \(folder\)$`. -/
def matchFindFolder (l : List Char) : Option (String × String) := do
  let (n, h, r4) ← findCommon l
  let r5 ← stripPre "folder)".toList r4
  if r5 = [] then pure (⟨n⟩, ⟨h⟩) else none

/-- Trailing `(.+)\)$` of the exported find patterns: succeeds when the
remainder ends in a closing parenthesis preceded by a nonempty newline-free
group. -/
def dotGroupCloseParen (r : List Char) : Option (List Char) :=
  match r.getLast? with
  | some ')' =>
    let g := r.dropLast
    if g ≠ [] ∧ '\n' ∉ g then some g else none
  | _ => none

/-- RE_FIND_FOLDER_EXPORTED:
`^([^<]+) <([\w\d:]+)> \(folder, [^:]+: (.+)\)$`. -/
def matchFindFolderExported (l : List Char) : Option (String × String × String) := do
  let (n, h, r4) ← findCommon l
  let r5 ← stripPre "folder, ".toList r4
  let (_, r6) ← span1 (fun c => c ≠ ':') r5
  let r7 ← stripPre ": ".toList r6
  let g ← dotGroupCloseParen r7
  pure (⟨n⟩, ⟨h⟩, ⟨g⟩)

/-- RE_FIND_FILE_EXPORTED:
`^([^<]+) <([\w\d:]+)> \(([^,\)]+),[^:]+: (.+)\)$`. -/
def matchFindFileExported (l : List Char) :
    Option (String × String × String × String) := do
  let (n, h, r4) ← findCommon l
  let (sz, r5) ← span1 (fun c => c ≠ ',' ∧ c ≠ ')') r4
  let r6 ← stripPre [','] r5
  let (_, r7) ← span1 (fun c => c ≠ ':') r6
  let r8 ← stripPre ": ".toList r7
  let g ← dotGroupCloseParen r8
  pure (⟨n⟩, ⟨h⟩, ⟨sz⟩, ⟨g⟩)

/-- RE_FIND_FILE: `^([^<]+) <([\w\d:]+)> \(([^\)]+)\)$`. -/
def matchFindFile (l : List Char) : Option (String × String × String) := do
  let (n, h, r4) ← findCommon l
  let (g, r5) ← span1 (fun c => c ≠ ')') r4
  if r5 = [')'] then pure (⟨n⟩, ⟨h⟩, ⟨g⟩) else none

/-- Loop of cmd_find over the stdout lines: blank stripped lines are
skipped, the four patterns are tried in the order of the source, and a
line matching none of them raises the unexpected-format failure. -/
def findGo : List String → Except MegaErr (List MEGADirectoryEntry)
  | [] => Except.ok []
  | line :: rest =>
    let sline := pyStrip line
    if sline = "" then findGo rest
    else
      let l := sline.toList
      match matchFindFolderExported l with
      | some (n, h, lk) =>
        (findGo rest).map (fun es =>
          { name := n, handle := h, is_directory := true, link := some lk } :: es)
      | none =>
        match matchFindFolder l with
        | some (n, h) =>
          (findGo rest).map (fun es =>
            { name := n, handle := h, is_directory := true, link := none } :: es)
        | none =>
          match matchFindFileExported l with
          | some (n, h, sz, lk) =>
            (findGo rest).map (fun es =>
              { name := n, handle := h, is_directory := false, size := some sz,
                link := some lk } :: es)
          | none =>
            match matchFindFile l with
            | some (n, h, sz) =>
              (findGo rest).map (fun es =>
                { name := n, handle := h, is_directory := false, size := some sz,
                  link := none } :: es)
            | none => Except.error (MegaErr.unexpectedFindLine line)

/-- Decoder of cmd_find: raise on nonzero exit, otherwise run the
line loop over the stripped stdout. -/
def cmd_find_decode (res : CMDResult) : Except MegaErr (List MEGADirectoryEntry) :=
  if res.return_code ≠ 0 then Except.error (MegaErr.failedFind res.stderr)
  else findGo (pySplitlines (pyStrip res.stdout))

/-! The export-list regexes.  They begin with a genuinely backtracking
`^(.+) ...`: the group is the longest nonempty newline-free prefix after
which the rest of the pattern matches. -/

/-- Greedy `^(.+)` followed by a continuation parser: returns the longest
nonempty newline-free prefix whose remainder the continuation accepts,
exactly as the backtracking regex engine does. -/
def greedyDotThen {α : Type} (k : List Char → Option α) :
    List Char → Option (List Char × α)
  | [] => none
  | c :: rest =>
    if c = '\n' then none
    else
      match greedyDotThen k rest with
      | some (g, a) => some (c :: g, a)
      | none =>
        match k rest with
        | some a => some ([c], a)
        | none => none

/-- Continuation of RE_EXPORT__LIST_FILE after the path group:
` \(([^,]+), shared as exported permanent file link: ([^\)]+)\)$`. -/
def exportListFileTail (rest : List Char) : Option (List Char × List Char) := do
  let r ← stripPre " (".toList rest
  let (sz, r2) ← span1 (fun c => c ≠ ',') r
  let r3 ← stripPre ", shared as exported permanent file link: ".toList r2
  let (lk, r4) ← span1 (fun c => c ≠ ')') r3
  if r4 = [')'] then pure (sz, lk) else none

/-- Continuation of RE_EXPORT__LIST_FOLDER after the path group:
` \(folder, shared as exported permanent folder link: ([^\)]+)\)$`. -/
def exportListFolderTail (rest : List Char) : Option (List Char) := do
  let r ← stripPre " (folder, shared as exported permanent folder link: ".toList rest
  let (lk, r2) ← span1 (fun c => c ≠ ')') r
  if r2 = [')'] then pure lk else none

/-- Continuation of RE_EXPORT__LIST_AUTHTOKEN after the link group:
` AuthToken=(.+?)$`. -/
def authTokenTail (rest : List Char) : Option (List Char) := do
  let r ← stripPre " AuthToken=".toList rest
  if r ≠ [] ∧ '\n' ∉ r then pure r else none

/-- RE_EXPORT__LIST_FILE: path, size and link groups. -/
def matchExportListFile (l : List Char) : Option (String × String × String) :=
  (greedyDotThen exportListFileTail l).map (fun t => (⟨t.1⟩, ⟨t.2.1⟩, ⟨t.2.2⟩))

/-- RE_EXPORT__LIST_FOLDER: path and link groups. -/
def matchExportListFolder (l : List Char) : Option (String × String) :=
  (greedyDotThen exportListFolderTail l).map (fun t => (⟨t.1⟩, ⟨t.2⟩))

/-- RE_EXPORT__LIST_AUTHTOKEN: link and token groups. -/
def matchAuthToken (l : List Char) : Option (String × String) :=
  (greedyDotThen authTokenTail l).map (fun t => (⟨t.1⟩, ⟨t.2⟩))

/-- Per-line decoding of cmd_export__list: a file or folder line yields an
export entry (with the link split on an AuthToken suffix when present), any
other line raises the unexpected-format failure. -/
def decodeExportListLine (line : String) : Except MegaErr MEGAExportEntry :=
  let l := line.toList
  let build := fun (path link : String) (size : Option String) (is_folder : Bool) =>
    match matchAuthToken link.toList with
    | some (lk, tok) =>
      ({ remote_path := path, link := lk, size := size, is_folder := is_folder,
         auth_token := some tok } : MEGAExportEntry)
    | none =>
      { remote_path := path, link := link, size := size, is_folder := is_folder,
        auth_token := none }
  match matchExportListFile l with
  | some (path, sz, link) => Except.ok (build path link (some sz) false)
  | none =>
    match matchExportListFolder l with
    | some (path, link) => Except.ok (build path link none true)
    | none => Except.error (MegaErr.unexpectedExportListLine line)

/-- Loop of cmd_export__list over the stdout lines, in order, stopping at
the first line whose decode raises. -/
def exportGo : List String → Except MegaErr (List MEGAExportEntry)
  | [] => Except.ok []
  | line :: rest =>
    match decodeExportListLine line with
    | Except.error e => Except.error e
    | Except.ok ent => (exportGo rest).map (fun es => ent :: es)

/-- Decoder of cmd_export__list: the empty list on nonzero exit (the source
logs and returns []), otherwise each stdout line must decode. -/
def cmd_export_list_decode (res : CMDResult) : Except MegaErr (List MEGAExportEntry) :=
  if res.return_code ≠ 0 then Except.ok []
  else exportGo (pySplitlines (pyStrip res.stdout))

/-! The cmd_ls decoder: fixed-width column parsing of every line after the
header. -/

/-- Per-line parsing of cmd_ls by fixed character offsets: flags 0:4 (the
source also slices a version column 4:9 and discards it), size 9:22, date
22:41, handle 41:52, name 52:; a size equal to "-" becomes absent, and
`flags[0]` raises IndexError on an empty flags field. -/
def parseLsLine (line : String) : Except MegaErr MEGADirectoryEntry :=
  match (pyStrip (pySlice line 0 4)).toList.head? with
  | none => Except.error MegaErr.charIndexError
  | some c =>
    Except.ok
      { name := pyStrip (pySliceFrom line 52),
        handle := pyStrip (pySlice line 41 52),
        is_directory := (c == 'd'),
        flags := some (pyStrip (pySlice line 0 4)),
        date := some (pyStrip (pySlice line 22 41)),
        size := if pyStrip (pySlice line 9 22) = "-" then none
          else some (pyStrip (pySlice line 9 22)),
        link := none }

/-- Loop of cmd_ls over the post-header lines, in order, stopping at the
first line whose parse raises. -/
def lsGo : List String → Except MegaErr (List MEGADirectoryEntry)
  | [] => Except.ok []
  | line :: rest =>
    match parseLsLine line with
    | Except.error e => Except.error e
    | Except.ok ent => (lsGo rest).map (fun es => ent :: es)

/-- Decoder of cmd_ls: raise on nonzero exit, otherwise parse every line
after the header by fixed offsets. -/
def cmd_ls_decode (res : CMDResult) : Except MegaErr (List MEGADirectoryEntry) :=
  if res.return_code ≠ 0 then Except.error (MegaErr.failedListDirectory res.stderr)
  else lsGo ((pySplitlines (pyStrip res.stdout)).drop 1)

/-! The process runner and the wrapper object.  `subprocess.run` is an
oracle function from the argument vector to a spawn outcome; the runner
builds `[self.mega_cmd_path] + args`, strips the captured texts, and
forwards the exit code unchanged — its only error is the propagated
FileNotFoundError of a failed spawn. -/

/-- MEGAcmdWrapper: its only field is the configured binary path. -/
structure MEGAcmdWrapper where
  mega_cmd_path : String
deriving DecidableEq, Repr

/-- MEGAcmdWrapper._run_mega_cmd. -/
def runMegaCmd (spawn : List String → SpawnResult) (path : String)
    (args : List String) : Except MegaErr CMDResult :=
  match spawn (path :: args) with
  | SpawnResult.completed r =>
    Except.ok ⟨pyStrip r.stdout, pyStrip r.stderr, r.returncode⟩
  | SpawnResult.fileNotFoundError => Except.error MegaErr.subprocessFileNotFound

/-- MEGAcmdWrapper.cmd_version: run `version` and return the stripped
stdout regardless of exit code; the second component is the unchanged
wrapper. -/
def cmd_version_full (spawn : List String → SpawnResult) (w : MEGAcmdWrapper) :
    Except MegaErr String × MEGAcmdWrapper :=
  ((runMegaCmd spawn w.mega_cmd_path ["version"]).map (fun r => pyStrip r.stdout), w)

/-- MEGAcmdWrapper.__init__: store the path; with check_path, call
cmd_version and re-raise a FileNotFoundError naming the configured path. -/
def wrapper_init (spawn : List String → SpawnResult) (mega_cmd_path : String)
    (check_path : Bool := true) : Except MegaErr MEGAcmdWrapper :=
  if check_path then
    match (cmd_version_full spawn ⟨mega_cmd_path⟩).1 with
    | Except.error MegaErr.subprocessFileNotFound =>
      Except.error (MegaErr.fileNotFoundAt mega_cmd_path)
    | Except.error e => Except.error e
    | Except.ok _ => Except.ok ⟨mega_cmd_path⟩
  else Except.ok ⟨mega_cmd_path⟩

/-! Full operations: command construction as in the source, the runner, and
the decoder; the wrapper is returned unchanged as the method bodies never
assign to self. -/

/-- MEGAcmdWrapper.cmd_cat. -/
def cmd_cat_full (spawn : List String → SpawnResult) (w : MEGAcmdWrapper)
    (remote_paths : List String) : Except MegaErr String × MEGAcmdWrapper :=
  let command := "cat" :: remote_paths.map (fun p => clean_remote_path p)
  ((runMegaCmd spawn w.mega_cmd_path command).bind cmd_cat_decode, w)

/-- MEGAcmdWrapper.cmd_cd. -/
def cmd_cd_full (spawn : List String → SpawnResult) (w : MEGAcmdWrapper)
    (remote_path : Option String) : Except MegaErr Bool × MEGAcmdWrapper :=
  let command := "cd" ::
    (match remote_path with
     | none => []
     | some p => [clean_remote_path p])
  ((runMegaCmd spawn w.mega_cmd_path command).bind cmd_cd_decode, w)

/-- MEGAcmdWrapper.cmd_df. -/
def cmd_df_full (spawn : List String → SpawnResult) (w : MEGAcmdWrapper) :
    Except MegaErr MEGADiskFreeResult × MEGAcmdWrapper :=
  ((runMegaCmd spawn w.mega_cmd_path ["df"]).bind cmd_df_decode, w)

/-- MEGAcmdWrapper.cmd_du. -/
def cmd_du_full (spawn : List String → SpawnResult) (w : MEGAcmdWrapper)
    (remote_paths : List String) : Except MegaErr MEGADuResult × MEGAcmdWrapper :=
  let command := "du" :: "--versions" :: remote_paths.map (fun p => clean_remote_path p)
  ((runMegaCmd spawn w.mega_cmd_path command).bind cmd_du_decode, w)

/-- MEGAcmdWrapper.cmd_export__list. -/
def cmd_export_list_full (spawn : List String → SpawnResult) (w : MEGAcmdWrapper)
    (remote_path : Option String) :
    Except MegaErr (List MEGAExportEntry) × MEGAcmdWrapper :=
  let command := "export" ::
    (match remote_path with
     | none => []
     | some p => [clean_remote_path p])
  ((runMegaCmd spawn w.mega_cmd_path command).bind cmd_export_list_decode, w)

/-- MEGAcmdWrapper.cmd_find. -/
def cmd_find_full (spawn : List String → SpawnResult) (w : MEGAcmdWrapper)
    (remote_path pattern time_constraint size_constraint : Option String) :
    Except MegaErr (List MEGADirectoryEntry) × MEGAcmdWrapper :=
  let command := ["find", "-l", "--show-handles"] ++
    (match time_constraint with
     | none => []
     | some t => ["--mtime=" ++ t]) ++
    (match size_constraint with
     | none => []
     | some s => ["--size=" ++ s]) ++
    (match remote_path with
     | none => []
     | some p => [clean_remote_path p]) ++
    (match pattern with
     | none => []
     | some p => ["--pattern=" ++ p])
  ((runMegaCmd spawn w.mega_cmd_path command).bind cmd_find_decode, w)

/-- MEGAcmdWrapper.cmd_ls. -/
def cmd_ls_full (spawn : List String → SpawnResult) (w : MEGAcmdWrapper)
    (remote_path : String) :
    Except MegaErr (List MEGADirectoryEntry) × MEGAcmdWrapper :=
  let command := ["ls", "-hal", "--show-handles", clean_remote_path remote_path]
  ((runMegaCmd spawn w.mega_cmd_path command).bind cmd_ls_decode, w)

/-- Body of MEGAcmdWrapper.cmd_login, instrumented with the list of spawned
command vectors so that the validation-before-spawn property is visible:
the ValueError branch fires before any command is built, user login
requires email and password to be non-None (AssertionError otherwise), and
either login maps exit 0 to True and anything else to False. -/
def cmd_login_core (spawn : List String → SpawnResult) (path : String)
    (email password auth_code session : Option String) :
    Except MegaErr Bool × List (List String) :=
  if (if pyTruthyStr email || pyTruthyStr password || pyTruthyStr auth_code then 1 else 0)
      + (if session.isSome then 1 else 0) ≠ 1 then
    (Except.error MegaErr.valueErrorLogin, [])
  else if pyTruthyStr email || pyTruthyStr password || pyTruthyStr auth_code then
    match email, password with
    | some e, some p =>
      let command := ["login", e, p] ++
        (match auth_code with
         | some a => if a ≠ "" then ["--auth-code=" ++ a] else []
         | none => [])
      ((runMegaCmd spawn path command).map (fun r => r.return_code = 0),
        [path :: command])
    | _, _ => (Except.error MegaErr.assertionErrorLogin, [])
  else if session.isSome then
    match session with
    | some s =>
      ((runMegaCmd spawn path ["login", s]).map (fun r => r.return_code = 0),
        [path :: ["login", s]])
    | none => (Except.error MegaErr.assertionErrorLogin, [])
  else (Except.ok false, [])

/-- MEGAcmdWrapper.cmd_login: the instrumented body, with the wrapper
returned unchanged as the method never assigns to self. -/
def cmd_login_full (spawn : List String → SpawnResult) (w : MEGAcmdWrapper)
    (email password auth_code session : Option String) :
    Except MegaErr Bool × List (List String) × MEGAcmdWrapper :=
  ((cmd_login_core spawn w.mega_cmd_path email password auth_code session).1,
    (cmd_login_core spawn w.mega_cmd_path email password auth_code session).2, w)

/-- Space run of a given length, for stating the disk-free sample-line
claim with one-or-more separating spaces. -/
def spacesStr (n : Nat) : String := ⟨List.replicate n ' '⟩

/-- The disk-free sample line of the claim, "USED STORAGE: 1000 50.0% of
2000", with each separating run of one-or-more spaces arbitrary. -/
def dfSampleLine (m n k : Nat) : String :=
  "USED STORAGE:" ++ spacesStr (m + 1) ++ "1000" ++ spacesStr (n + 1) ++
    "50.0% of" ++ spacesStr (k + 1) ++ "2000"

/-- Sample directory-listing line with directory flag and handle token. -/
def lsSampleLine : String :=
  "d---    -            -2024-01-01 00:00:00 H:abcdefgh mydir"

/-- Sample cmd_ls output: a header line followed by the sample line. -/
def lsSampleRes : CMDResult :=
  ⟨"FLAGS  VERS         SIZE DATE                HANDLE     NAME\n" ++ lsSampleLine,
    "", 0⟩

/-- Decoded entries of the sample listing. -/
def lsSampleEntries : List MEGADirectoryEntry :=
  [{ name := "mydir", handle := "H:abcdefgh", is_directory := true,
     flags := some "d---", date := some "2024-01-01 00:00:00", size := none,
     link := none }]

/-! No-match predicates for the unexpected-line claim. -/

/-- A line matching none of the five df shapes. -/
def noDfMatch (line : String) : Prop :=
  matchDfCloud line.toList = none ∧ matchDfInbox line.toList = none ∧
    matchDfBin line.toList = none ∧ matchDfTotal line.toList = none ∧
    matchDfVersions line.toList = none

/-- A stripped line matching neither du shape. -/
def noDuMatch (line : String) : Prop :=
  matchDuTotal (pyStrip line).toList = none ∧ matchDuEntry (pyStrip line).toList = none

/-- A stripped line matching none of the four find shapes. -/
def noFindMatch (l : List Char) : Prop :=
  matchFindFolderExported l = none ∧ matchFindFolder l = none ∧
    matchFindFileExported l = none ∧ matchFindFile l = none

/-- A line matching neither export-list shape. -/
def noExportListMatch (line : String) : Prop :=
  matchExportListFile line.toList = none ∧ matchExportListFolder line.toList = none

/-! Helper lemmas about the strip primitives. -/

theorem dropWhile_head_false {p : Char → Bool} {l : List Char} {c : Char}
    (h : l.head? = some c) (hc : p c = false) : l.dropWhile p = l := by
  cases l with
  | nil => simp at h
  | cons a t =>
    simp only [List.head?_cons, Option.some.injEq] at h
    subst h
    simp [List.dropWhile, hc]

theorem head_dropWhile_false {p : Char → Bool} {l : List Char} {c : Char}
    (h : (l.dropWhile p).head? = some c) : p c = false := by
  induction l with
  | nil => simp [List.dropWhile] at h
  | cons a t ih =>
    by_cases hp : p a
    · simp [List.dropWhile, hp] at h
      exact ih h
    · simp [List.dropWhile, hp] at h
      subst h
      simpa using hp

theorem dropWhile_idem (p : Char → Bool) (l : List Char) :
    (l.dropWhile p).dropWhile p = l.dropWhile p := by
  cases h : l.dropWhile p with
  | nil => simp
  | cons a t =>
    have ha : p a = false := by
      apply head_dropWhile_false (l := l) (p := p)
      rw [h]; rfl
    simp [List.dropWhile, ha]

theorem rstripChars_getLast_not_mem {cs : List Char} {l : List Char} {c : Char}
    (h : (rstripChars cs l).getLast? = some c) : memChars cs c = false := by
  induction l with
  | nil => simp [rstripChars] at h
  | cons a t ih =>
    rw [rstripChars] at h
    by_cases hcond : rstripChars cs t = [] ∧ memChars cs a
    · simp [hcond] at h
    · simp only [if_neg hcond] at h
      cases ht : rstripChars cs t with
      | nil =>
        rw [ht] at h
        simp only [List.getLast?_singleton, Option.some.injEq] at h
        subst h
        rw [ht] at hcond
        simp at hcond
        simpa using hcond
      | cons b u =>
        rw [ht] at h
        rw [List.getLast?_cons_cons] at h
        rw [ht] at ih
        exact ih h

theorem rstripChars_idem (cs : List Char) (l : List Char) :
    rstripChars cs (rstripChars cs l) = rstripChars cs l := by
  induction l with
  | nil => simp [rstripChars]
  | cons a t ih =>
    rw [rstripChars]
    by_cases hcond : rstripChars cs t = [] ∧ memChars cs a
    · simp [hcond, rstripChars]
    · simp only [if_neg hcond]
      rw [rstripChars, ih]
      simp only [if_neg hcond]

theorem rstripChars_cons_not_mem {cs : List Char} {a : Char} (t : List Char)
    (h : memChars cs a = false) :
    rstripChars cs (a :: t) = a :: rstripChars cs t := by
  rw [rstripChars]
  have hne : ¬ (rstripChars cs t = [] ∧ memChars cs a) := by
    intro hc
    rw [hc.2] at h
    simp at h
  simp [hne]

theorem rstripChars_append_mem {cs : List Char} {c : Char} (h : memChars cs c = true)
    (l : List Char) : rstripChars cs (l ++ [c]) = rstripChars cs l := by
  induction l with
  | nil => simp [rstripChars, h]
  | cons a t ih =>
    simp only [List.cons_append]
    rw [rstripChars, ih, rstripChars]

theorem rstripChars_head {cs : List Char} (l : List Char) :
    (rstripChars cs l).head? = none ∨ (rstripChars cs l).head? = l.head? := by
  cases l with
  | nil => left; rfl
  | cons a t =>
    rw [rstripChars]
    by_cases hcond : rstripChars cs t = [] ∧ memChars cs a
    · left; simp [hcond]
    · right; simp [hcond]

theorem getLast_concat_char (l : List Char) (c : Char) :
    (l ++ [c]).getLast? = some c := by
  simp


theorem clean_local_path_false_eq (p : String) :
    clean_local_path p false = ⟨cleanCore p.toList⟩ := by
  unfold clean_local_path cleanCore
  simp

theorem cleanCore_not_slash_last (p : List Char) :
    ¬ (cleanCore p).getLast? = some '/' := by
  intro hc
  have := @rstripChars_getLast_not_mem ['/'] _ _ hc
  simp [memChars] at this

theorem clean_local_path_true_eq (p : String) :
    clean_local_path p true = ⟨cleanCore p.toList ++ ['/']⟩ := by
  unfold clean_local_path
  have hcond : (true = true ∧ ¬ pyEndsWithChar ⟨cleanCore p.toList⟩ '/' = true) := by
    refine ⟨rfl, ?_⟩
    intro hc
    unfold pyEndsWithChar at hc
    simp only [decide_eq_true_eq] at hc
    exact cleanCore_not_slash_last p.toList hc
  show (if true = true ∧ ¬ pyEndsWithChar ⟨cleanCore p.toList⟩ '/' = true
      then (⟨cleanCore p.toList⟩ : String) ++ "/" else ⟨cleanCore p.toList⟩) =
      ⟨cleanCore p.toList ++ ['/']⟩
  rw [if_pos hcond]
  rfl

theorem cleanCore_head_not_space {p : List Char} {c : Char}
    (h : (cleanCore p).head? = some c) : memChars [' ', '\n'] c = false := by
  unfold cleanCore at h
  rcases @rstripChars_head ['/'] (lstripChars [' ', '\n'] p) with h0 | h0
  · rw [h0] at h; simp at h
  · rw [h0] at h
    exact head_dropWhile_false h

theorem lstrip_cleanCore (p : List Char) :
    lstripChars [' ', '\n'] (cleanCore p) = cleanCore p := by
  cases hh : (cleanCore p).head? with
  | none =>
    have he : cleanCore p = [] := by
      cases hc : cleanCore p with
      | nil => rfl
      | cons a t => rw [hc] at hh; simp at hh
    rw [he]; rfl
  | some c =>
    exact dropWhile_head_false hh (cleanCore_head_not_space hh)

theorem cleanCore_idem (p : List Char) : cleanCore (cleanCore p) = cleanCore p := by
  unfold cleanCore
  rw [show lstripChars [' ', '\n'] (rstripChars ['/'] (lstripChars [' ', '\n'] p)) =
      rstripChars ['/'] (lstripChars [' ', '\n'] p) from lstrip_cleanCore p]
  exact rstripChars_idem _ _

theorem cleanCore_concat_slash (p : List Char) :
    cleanCore (cleanCore p ++ ['/']) = cleanCore p := by
  unfold cleanCore
  have hl : lstripChars [' ', '\n'] (cleanCore p ++ ['/']) = cleanCore p ++ ['/'] := by
    cases hc : cleanCore p with
    | nil =>
      show List.dropWhile (memChars [' ', '\n']) ['/'] = ['/']
      simp [List.dropWhile, memChars]
    | cons a t =>
      have hh : ((a :: t) ++ ['/']).head? = some a := rfl
      have ha : memChars [' ', '\n'] a = false := by
        apply cleanCore_head_not_space (p := p)
        rw [hc]; rfl
      exact dropWhile_head_false hh ha
  show rstripChars ['/'] (lstripChars [' ', '\n'] (cleanCore p ++ ['/'])) = cleanCore p
  rw [hl, rstripChars_append_mem (by simp [memChars])]
  have : rstripChars ['/'] (cleanCore p) = cleanCore p := by
    unfold cleanCore
    exact rstripChars_idem _ _
  exact this

theorem toList_mk_list (l : List Char) : (⟨l⟩ : String).toList = l := rfl

/-- C9: clean_local_path is idempotent for both values of the trailing-slash
flag, and with the flag set its result always ends in a slash. -/
theorem clean_local_path_idem (p : String) (f : Bool) :
    clean_local_path (clean_local_path p f) f = clean_local_path p f ∧
      pyEndsWithChar (clean_local_path p true) '/' = true := by
  constructor
  · cases f with
    | false =>
      rw [clean_local_path_false_eq p, clean_local_path_false_eq, toList_mk_list,
        cleanCore_idem]
    | true =>
      rw [clean_local_path_true_eq p, clean_local_path_true_eq, toList_mk_list,
        cleanCore_concat_slash]
  · rw [clean_local_path_true_eq p]
    unfold pyEndsWithChar
    rw [toList_mk_list, getLast_concat_char]
    simp

/-- C4: whenever the spawned process runs to completion, the Process Runner
returns the stdout/stderr/exit-code triple for that run — for every exit
code, zero or not — and never raises; its argument vector is the configured
path followed by the given arguments. -/
theorem run_mega_cmd_total (spawn : List String → SpawnResult) (path : String)
    (args : List String) (r : RawResult)
    (h : spawn (path :: args) = SpawnResult.completed r) :
    runMegaCmd spawn path args =
      Except.ok ⟨pyStrip r.stdout, pyStrip r.stderr, r.returncode⟩ := by
  unfold runMegaCmd
  rw [h]

/-- Witness for C4 at a nonzero exit code. -/
theorem run_mega_cmd_total_witness :
    runMegaCmd (fun _ => SpawnResult.completed ⟨" out ", "err", 53⟩) "/mega" ["cd"] =
      Except.ok ⟨pyStrip " out ", pyStrip "err", 53⟩ :=
  run_mega_cmd_total (fun _ => SpawnResult.completed ⟨" out ", "err", 53⟩)
    "/mega" ["cd"] ⟨" out ", "err", 53⟩ rfl

/-- C5: cmd_cd returns True exactly on exit 0, False exactly on exit 53 and
raises the generic failure otherwise; cmd_cat returns the stripped stdout
exactly on exit 0, raises the not-found error on 53 and the not-a-file
error on 51. -/
theorem exit_code_classification (res : CMDResult) :
    (cmd_cd_decode res = Except.ok true ↔ res.return_code = 0) ∧
    (cmd_cd_decode res = Except.ok false ↔ res.return_code = 53) ∧
    (res.return_code ≠ 0 → res.return_code ≠ 53 →
      cmd_cd_decode res = Except.error (MegaErr.failedChangeDirectory res.stderr)) ∧
    ((∃ s, cmd_cat_decode res = Except.ok s) ↔ res.return_code = 0) ∧
    (res.return_code = 0 → cmd_cat_decode res = Except.ok (pyStrip res.stdout)) ∧
    (res.return_code = 53 → cmd_cat_decode res = Except.error (MegaErr.remotePathNotFound res)) ∧
    (res.return_code = 51 → cmd_cat_decode res = Except.error (MegaErr.remotePathNotAFile res)) := by
  unfold cmd_cd_decode cmd_cat_decode
  by_cases h0 : res.return_code = 0
  · simp [h0]
  · by_cases h53 : res.return_code = 53
    · simp [h53]
    · by_cases h51 : res.return_code = 51
      · simp [h0, h53, h51]
      · simp [h0, h53, h51]

/-- Witness for C5 at exit code 53. -/
theorem exit_code_classification_witness :
    cmd_cd_decode ⟨"o", "e", 53⟩ = Except.ok false ∧
      cmd_cat_decode ⟨"o", "e", 53⟩ =
        Except.error (MegaErr.remotePathNotFound ⟨"o", "e", 53⟩) :=
  ⟨(exit_code_classification ⟨"o", "e", 53⟩).2.1.mpr rfl,
    (exit_code_classification ⟨"o", "e", 53⟩).2.2.2.2.2.1 rfl⟩

/-- C7: with check_path, a binary missing at the configured path (every
spawn with that path raises FileNotFoundError) makes construction fail
with a FileNotFoundError naming that path; without check_path,
construction always succeeds. -/
theorem init_surfaces_missing_binary :
    (∀ (spawn : List String → SpawnResult) (path : String),
      (∀ args, spawn (path :: args) = SpawnResult.fileNotFoundError) →
      wrapper_init spawn path true = Except.error (MegaErr.fileNotFoundAt path)) ∧
    (∀ (spawn : List String → SpawnResult) (path : String),
      wrapper_init spawn path false = Except.ok ⟨path⟩) := by
  constructor
  · intro spawn path h
    have hv : spawn [path, "version"] = SpawnResult.fileNotFoundError := h ["version"]
    simp [wrapper_init, cmd_version_full, runMegaCmd, hv, Except.map]
  · intro spawn path
    rfl

/-- Witness for C7: a spawn oracle that never finds the executable. -/
theorem init_surfaces_missing_binary_witness :
    wrapper_init (fun _ => SpawnResult.fileNotFoundError) "/usr/bin/mega" true =
      Except.error (MegaErr.fileNotFoundAt "/usr/bin/mega") :=
  init_surfaces_missing_binary.1 (fun _ => SpawnResult.fileNotFoundError)
    "/usr/bin/mega" (fun _ => rfl)

/-- C8: the wrapper's only field is written at construction and every
modeled operation returns the wrapper unchanged whatever its outcome. -/
theorem wrapper_stateless (spawn : List String → SpawnResult) (w : MEGAcmdWrapper)
    (paths : List String) (rp rp2 : Option String) (lsp : String)
    (e pw ac ss pat tc sc : Option String) (path : String) (cp : Bool) :
    (cmd_cat_full spawn w paths).2 = w ∧
    (cmd_cd_full spawn w rp).2 = w ∧
    (cmd_df_full spawn w).2 = w ∧
    (cmd_du_full spawn w paths).2 = w ∧
    (cmd_export_list_full spawn w rp2).2 = w ∧
    (cmd_find_full spawn w rp2 pat tc sc).2 = w ∧
    (cmd_ls_full spawn w lsp).2 = w ∧
    (cmd_login_full spawn w e pw ac ss).2.2 = w ∧
    (cmd_version_full spawn w).2 = w ∧
    (∀ w', wrapper_init spawn path cp = Except.ok w' → w'.mega_cmd_path = path) := by
  refine ⟨rfl, rfl, rfl, rfl, rfl, rfl, rfl, rfl, rfl, ?_⟩
  intro w' h
  unfold wrapper_init at h
  cases cp with
  | false =>
    simp only [Bool.false_eq_true, if_false] at h
    injection h with h2
    rw [← h2]
  | true =>
    simp only [if_true] at h
    split at h
    · exact absurd h (by intro hc; cases hc)
    · exact absurd h (by intro hc; cases hc)
    · injection h with h2
      rw [← h2]

/-- Witness for C8 exercising the construction conjunct. -/
theorem wrapper_stateless_witness :
    (cmd_df_full (fun _ => SpawnResult.completed ⟨"", "", 1⟩) ⟨"/m"⟩).2 = ⟨"/m"⟩ ∧
      (⟨"/m"⟩ : MEGAcmdWrapper).mega_cmd_path = "/m" :=
  ⟨(wrapper_stateless (fun _ => SpawnResult.completed ⟨"", "", 1⟩) ⟨"/m"⟩
      [] none none "" none none none none none none none "/m" false).2.2.1,
    (wrapper_stateless (fun _ => SpawnResult.completed ⟨"", "", 1⟩) ⟨"/m"⟩
      [] none none "" none none none none none none none "/m" false).2.2.2.2.2.2.2.2.2
      ⟨"/m"⟩ rfl⟩

/-- C10: cmd_login raises ValueError — and spawns nothing — whenever no
login method is supplied (no truthy user field and no session) and
whenever both methods are supplied (a truthy user field together with a
session). -/
theorem login_validates_first (spawn : List String → SpawnResult)
    (w : MEGAcmdWrapper) (e pw ac ss : Option String) :
    ((pyTruthyStr e = false ∧ pyTruthyStr pw = false ∧ pyTruthyStr ac = false) →
      ss = none →
      cmd_login_full spawn w e pw ac ss = (Except.error MegaErr.valueErrorLogin, [], w)) ∧
    ((pyTruthyStr e = true ∨ pyTruthyStr pw = true ∨ pyTruthyStr ac = true) →
      ss ≠ none →
      cmd_login_full spawn w e pw ac ss = (Except.error MegaErr.valueErrorLogin, [], w)) := by
  have hfull : ∀ (res : Except MegaErr Bool × List (List String)),
      cmd_login_core spawn w.mega_cmd_path e pw ac ss = res →
      cmd_login_full spawn w e pw ac ss = (res.1, res.2, w) := by
    intro res hres
    unfold cmd_login_full
    rw [hres]
  constructor
  · intro hu hs
    refine hfull (Except.error MegaErr.valueErrorLogin, []) ?_
    unfold cmd_login_core
    rw [hu.1, hu.2.1, hu.2.2, hs]
    simp
  · intro hu hs
    refine hfull (Except.error MegaErr.valueErrorLogin, []) ?_
    unfold cmd_login_core
    have hsome : ss.isSome = true := Option.isSome_iff_ne_none.mpr hs
    have huser : (pyTruthyStr e || pyTruthyStr pw || pyTruthyStr ac) = true := by
      rcases hu with h | h | h <;> simp [h]
    rw [huser, hsome]
    simp

/-- Witness for C10: neither method, and both methods. -/
theorem login_validates_first_witness :
    cmd_login_full (fun _ => SpawnResult.completed ⟨"", "", 0⟩) ⟨"/m"⟩
        none none none none = (Except.error MegaErr.valueErrorLogin, [], ⟨"/m"⟩) ∧
      cmd_login_full (fun _ => SpawnResult.completed ⟨"", "", 0⟩) ⟨"/m"⟩
        (some "a@b.c") (some "pw") none (some "sess") =
        (Except.error MegaErr.valueErrorLogin, [], ⟨"/m"⟩) :=
  ⟨(login_validates_first (fun _ => SpawnResult.completed ⟨"", "", 0⟩) ⟨"/m"⟩
      none none none none).1 ⟨rfl, rfl, rfl⟩ rfl,
    (login_validates_first (fun _ => SpawnResult.completed ⟨"", "", 0⟩) ⟨"/m"⟩
      (some "a@b.c") (some "pw") none (some "sess")).2
      (Or.inl (by decide)) (by simp)⟩

theorem du_foldl_spec (lines : List String) : ∀ (es : List MEGADuEntry) (t : Nat × Nat),
    lines.foldl duStep (es, t) =
      (es ++ duEntriesSpec lines, (lastDuTotal lines).getD t) := by
  induction lines with
  | nil =>
    intro es t
    simp [duEntriesSpec, lastDuTotal]
  | cons l rest ih =>
    intro es t
    cases ht : matchDuTotal (pyStrip l).toList with
    | some tv =>
      obtain ⟨t1, t2⟩ := tv
      have ht2 : matchDuTotal (pyStrip l).data = some (t1, t2) := ht
      have hd : duStep (es, t) l = (es, (t1, t2)) := by
        simp [duStep, ht2]
      rw [List.foldl_cons, hd, ih]
      have hspec : duEntriesSpec (l :: rest) = duEntriesSpec rest := by
        simp [duEntriesSpec, List.filterMap_cons, ht2]
      rw [hspec]
      have htot : (lastDuTotal (l :: rest)).getD t = (lastDuTotal rest).getD (t1, t2) := by
        rw [lastDuTotal]
        cases h2 : lastDuTotal rest with
        | some tx => simp
        | none => simp [ht2]
      rw [htot]
    | none =>
      have ht2 : matchDuTotal (pyStrip l).data = none := ht
      cases he : matchDuEntry (pyStrip l).toList with
      | some ev =>
        have he2 : matchDuEntry (pyStrip l).data = some ev := he
        have hd : duStep (es, t) l = (es ++ [⟨ev.1, ev.2.1, ev.2.2⟩], t) := by
          simp [duStep, ht2, he2]
        rw [List.foldl_cons, hd, ih]
        have hspec : duEntriesSpec (l :: rest) =
            (⟨ev.1, ev.2.1, ev.2.2⟩ : MEGADuEntry) :: duEntriesSpec rest := by
          simp [duEntriesSpec, List.filterMap_cons, ht2, he2]
        rw [hspec]
        have htot : (lastDuTotal (l :: rest)).getD t = (lastDuTotal rest).getD t := by
          rw [lastDuTotal]
          cases h2 : lastDuTotal rest with
          | some tx => simp
          | none => simp [ht2]
        rw [htot, List.append_assoc]
        rfl
      | none =>
        have he2 : matchDuEntry (pyStrip l).data = none := he
        have hd : duStep (es, t) l = (es, t) := by
          simp [duStep, ht2, he2]
        rw [List.foldl_cons, hd, ih]
        have hspec : duEntriesSpec (l :: rest) = duEntriesSpec rest := by
          simp [duEntriesSpec, List.filterMap_cons, ht2, he2]
        rw [hspec]
        have htot : (lastDuTotal (l :: rest)).getD t = (lastDuTotal rest).getD t := by
          rw [lastDuTotal]
          cases h2 : lastDuTotal rest with
          | some tx => simp
          | none => simp [ht2]
        rw [htot]

/-- C6: on a success exit code cmd_du returns the entry lines in stdout
order (a line matching the total shape is not an entry), with the totals
taken from the last "Total storage used:" line, and (0, 0) when no such
line exists. -/
theorem cmd_du_order_and_totals (res : CMDResult) (h : res.return_code = 0) :
    cmd_du_decode res =
      Except.ok ⟨duEntriesSpec (pySplitlines (pyStrip res.stdout)),
        ((lastDuTotal (pySplitlines (pyStrip res.stdout))).getD (0, 0)).1,
        ((lastDuTotal (pySplitlines (pyStrip res.stdout))).getD (0, 0)).2⟩ := by
  unfold cmd_du_decode
  rw [if_neg (by simp [h])]
  simp only [du_foldl_spec, List.nil_append]

/-- Witness for C6 on a three-line report. -/
theorem cmd_du_order_and_totals_witness :
    cmd_du_decode ⟨"a: 1 2\nb: 3 4\nTotal storage used: 10 20", "", 0⟩ =
      Except.ok ⟨[⟨"a", 1, 2⟩, ⟨"b", 3, 4⟩], 10, 20⟩ := by
  rw [cmd_du_order_and_totals _ rfl]
  rfl

theorem lsGo_get :
    ∀ {lines : List String} {entries : List MEGADirectoryEntry},
      lsGo lines = Except.ok entries →
      ∀ (i : Nat) (line : String), lines.get? i = some line →
        ∃ e, entries.get? i = some e ∧ parseLsLine line = Except.ok e := by
  intro lines
  induction lines with
  | nil =>
    intro entries h i line hl
    simp at hl
  | cons a rest ih =>
    intro entries h i line hl
    rw [lsGo] at h
    cases hp : parseLsLine a with
    | error e =>
      rw [hp] at h
      exact absurd h (by simp)
    | ok ent =>
      rw [hp] at h
      cases hr : lsGo rest with
      | error e2 =>
        rw [hr] at h
        exact absurd h (by simp [Except.map])
      | ok es =>
        rw [hr] at h
        have h2 : ent :: es = entries := by
          simpa [Except.map] using h
        subst h2
        cases i with
        | zero =>
          simp at hl
          subst hl
          exact ⟨ent, rfl, hp⟩
        | succ j =>
          obtain ⟨e, he, hpe⟩ := ih hr j line (by simpa using hl)
          exact ⟨e, by simpa using he, hpe⟩

theorem parseLsLine_dir {line : String} (h : line.toList.head? = some 'd') :
    ∃ e, parseLsLine line = Except.ok e ∧ e.is_directory = true ∧
      e.handle = pyStrip (pySlice line 41 52) := by
  have hmem : memChars pySpaceChars 'd' = false := by decide
  cases hl : line.toList with
  | nil =>
    rw [hl] at h
    simp at h
  | cons c0 t =>
    rw [hl] at h
    simp only [List.head?_cons, Option.some.injEq] at h
    subst h
    have h1 : pySlice line 0 4 = ⟨'d' :: t.take 3⟩ := by
      unfold pySlice
      rw [hl]
      rfl
    have h2 : lstripChars pySpaceChars ('d' :: t.take 3) = 'd' :: t.take 3 :=
      dropWhile_head_false rfl hmem
    have h3 : rstripChars pySpaceChars ('d' :: t.take 3) =
        'd' :: rstripChars pySpaceChars (t.take 3) :=
      rstripChars_cons_not_mem _ hmem
    have hf : (pyStrip (pySlice line 0 4)).toList.head? = some 'd' := by
      rw [h1]
      unfold pyStrip
      rw [toList_mk_list, toList_mk_list, h2, h3]
      rfl
    refine ⟨{ name := pyStrip (pySliceFrom line 52),
              handle := pyStrip (pySlice line 41 52),
              is_directory := ('d' == 'd'),
              flags := some (pyStrip (pySlice line 0 4)),
              date := some (pyStrip (pySlice line 22 41)),
              size := if pyStrip (pySlice line 9 22) = "-" then none
                else some (pyStrip (pySlice line 9 22)),
              link := none }, ?_, ?_, rfl⟩
    · unfold parseLsLine
      rw [hf]
    · rfl

/-- C2: cmd_ls parses each post-header line by fixed character offsets;
in particular a line whose character at offset 0 is d and whose columns
41-51 carry a handle token decodes to an entry, at the same position, with
is_directory true and handle equal to the stripped 41:52 substring. -/
theorem cmd_ls_fixed_offsets (res : CMDResult) (i : Nat) (line : String)
    (h0 : res.return_code = 0)
    (hline : ((pySplitlines (pyStrip res.stdout)).drop 1).get? i = some line)
    (hd : line.toList.head? = some 'd')
    (htok : pyStrip (pySlice line 41 52) ≠ "")
    (entries : List MEGADirectoryEntry)
    (hdec : cmd_ls_decode res = Except.ok entries) :
    ∃ e, entries.get? i = some e ∧ e.is_directory = true ∧
      e.handle = pyStrip (pySlice line 41 52) := by
  unfold cmd_ls_decode at hdec
  rw [if_neg (by simp [h0])] at hdec
  obtain ⟨e, he, hpe⟩ := lsGo_get hdec i line hline
  obtain ⟨e2, hp2, hdir, hhandle⟩ := parseLsLine_dir hd
  rw [hpe] at hp2
  injection hp2 with hee
  subst hee
  exact ⟨e, he, hdir, hhandle⟩

set_option maxRecDepth 8192 in
/-- Witness for C2 on the sample listing. -/
theorem cmd_ls_fixed_offsets_witness :
    ∃ e, lsSampleEntries.get? 0 = some e ∧ e.is_directory = true ∧
      e.handle = pyStrip (pySlice lsSampleLine 41 52) :=
  cmd_ls_fixed_offsets lsSampleRes 0 lsSampleLine rfl (by rfl) (by rfl)
    (by decide) lsSampleEntries (by rfl)

theorem dfStep_skip {acc : MEGADiskFreeResult} {line : String}
    (h : noDfMatch line) : dfStep acc line = Except.ok acc := by
  obtain ⟨h1, h2, h3, h4, h5⟩ := h
  have h1d : matchDfCloud line.data = none := h1
  have h2d : matchDfInbox line.data = none := h2
  have h3d : matchDfBin line.data = none := h3
  have h4d : matchDfTotal line.data = none := h4
  have h5d : matchDfVersions line.data = none := h5
  simp [dfStep, h1, h2, h3, h4, h5, h1d, h2d, h3d, h4d, h5d]

theorem df_foldlM_skip : ∀ (lines : List String) (acc : MEGADiskFreeResult),
    (∀ line ∈ lines, noDfMatch line) →
    lines.foldlM dfStep acc = Except.ok acc := by
  intro lines
  induction lines with
  | nil => intro acc h; rfl
  | cons a rest ih =>
    intro acc h
    have ha : noDfMatch a := h a (List.mem_cons_self a rest)
    have hr : ∀ line ∈ rest, noDfMatch line := fun l hl => h l (List.mem_cons_of_mem a hl)
    simp only [List.foldlM_cons, dfStep_skip ha]
    simpa using ih acc hr

theorem duStep_skip {acc : List MEGADuEntry × Nat × Nat} {line : String}
    (h : noDuMatch line) : duStep acc line = acc := by
  obtain ⟨h1, h2⟩ := h
  have h1d : matchDuTotal (pyStrip line).data = none := h1
  have h2d : matchDuEntry (pyStrip line).data = none := h2
  simp [duStep, h1, h2, h1d, h2d]

theorem du_foldl_skip : ∀ (lines : List String) (acc : List MEGADuEntry × Nat × Nat),
    (∀ line ∈ lines, noDuMatch line) →
    lines.foldl duStep acc = acc := by
  intro lines
  induction lines with
  | nil => intro acc h; rfl
  | cons a rest ih =>
    intro acc h
    have ha : noDuMatch a := h a (List.mem_cons_self a rest)
    have hr : ∀ line ∈ rest, noDuMatch line := fun l hl => h l (List.mem_cons_of_mem a hl)
    rw [List.foldl_cons, duStep_skip ha]
    exact ih acc hr

theorem findGo_error_of_bad : ∀ (lines : List String),
    (∃ line ∈ lines, pyStrip line ≠ "" ∧ noFindMatch (pyStrip line).toList) →
    ∃ l, findGo lines = Except.error (MegaErr.unexpectedFindLine l) := by
  intro lines
  induction lines with
  | nil =>
    intro h
    obtain ⟨line, hmem, _⟩ := h
    simp at hmem
  | cons a rest ih =>
    intro h
    obtain ⟨line, hmem, hne, hnm⟩ := h
    by_cases hs : pyStrip a = ""
    · have hrest : line ∈ rest := by
        cases List.mem_cons.mp hmem with
        | inl he =>
          subst he
          exact absurd hs hne
        | inr hr => exact hr
      obtain ⟨l, herr⟩ := ih ⟨line, hrest, hne, hnm⟩
      exact ⟨l, by simp [findGo, hs, herr]⟩
    · cases hm1 : matchFindFolderExported (pyStrip a).toList with
      | some v =>
        have hrest : line ∈ rest := by
          cases List.mem_cons.mp hmem with
          | inl he =>
            subst he
            exact absurd hm1 (by rw [hnm.1]; simp)
          | inr hr => exact hr
        obtain ⟨l, herr⟩ := ih ⟨line, hrest, hne, hnm⟩
        have hm1d : matchFindFolderExported (pyStrip a).data = some v := hm1
        refine ⟨l, ?_⟩
        obtain ⟨n, hh, lk⟩ := v
        simp [findGo, hs, hm1, hm1d, herr, Except.map]
      | none =>
        have hm1d : matchFindFolderExported (pyStrip a).data = none := hm1
        cases hm2 : matchFindFolder (pyStrip a).toList with
        | some v =>
          have hrest : line ∈ rest := by
            cases List.mem_cons.mp hmem with
            | inl he =>
              subst he
              exact absurd hm2 (by rw [hnm.2.1]; simp)
            | inr hr => exact hr
          obtain ⟨l, herr⟩ := ih ⟨line, hrest, hne, hnm⟩
          have hm2d : matchFindFolder (pyStrip a).data = some v := hm2
          refine ⟨l, ?_⟩
          obtain ⟨n, hh⟩ := v
          simp [findGo, hs, hm1, hm1d, hm2, hm2d, herr, Except.map]
        | none =>
          have hm2d : matchFindFolder (pyStrip a).data = none := hm2
          cases hm3 : matchFindFileExported (pyStrip a).toList with
          | some v =>
            have hrest : line ∈ rest := by
              cases List.mem_cons.mp hmem with
              | inl he =>
                subst he
                exact absurd hm3 (by rw [hnm.2.2.1]; simp)
              | inr hr => exact hr
            obtain ⟨l, herr⟩ := ih ⟨line, hrest, hne, hnm⟩
            have hm3d : matchFindFileExported (pyStrip a).data = some v := hm3
            refine ⟨l, ?_⟩
            obtain ⟨n, hh, sz, lk⟩ := v
            simp [findGo, hs, hm1, hm1d, hm2, hm2d, hm3, hm3d, herr, Except.map]
          | none =>
            have hm3d : matchFindFileExported (pyStrip a).data = none := hm3
            cases hm4 : matchFindFile (pyStrip a).toList with
            | some v =>
              have hrest : line ∈ rest := by
                cases List.mem_cons.mp hmem with
                | inl he =>
                  subst he
                  exact absurd hm4 (by rw [hnm.2.2.2]; simp)
                | inr hr => exact hr
              obtain ⟨l, herr⟩ := ih ⟨line, hrest, hne, hnm⟩
              have hm4d : matchFindFile (pyStrip a).data = some v := hm4
              refine ⟨l, ?_⟩
              obtain ⟨n, hh, sz⟩ := v
              simp [findGo, hs, hm1, hm1d, hm2, hm2d, hm3, hm3d, hm4, hm4d, herr,
                Except.map]
            | none =>
              have hm4d : matchFindFile (pyStrip a).data = none := hm4
              refine ⟨a, ?_⟩
              simp [findGo, hs, hm1, hm1d, hm2, hm2d, hm3, hm3d, hm4, hm4d]

theorem decodeExportListLine_nomatch {line : String} (h : noExportListMatch line) :
    decodeExportListLine line = Except.error (MegaErr.unexpectedExportListLine line) := by
  obtain ⟨h1, h2⟩ := h
  have h1d : matchExportListFile line.data = none := h1
  have h2d : matchExportListFolder line.data = none := h2
  simp [decodeExportListLine, h1, h2, h1d, h2d]

theorem decodeExportListLine_error_shape {line : String} {e : MegaErr}
    (h : decodeExportListLine line = Except.error e) :
    e = MegaErr.unexpectedExportListLine line := by
  cases hm1 : matchExportListFile line.toList with
  | some v =>
    have hm1d : matchExportListFile line.data = some v := hm1
    obtain ⟨p, sz, lk⟩ := v
    simp [decodeExportListLine, hm1, hm1d] at h
  | none =>
    have hm1d : matchExportListFile line.data = none := hm1
    cases hm2 : matchExportListFolder line.toList with
    | some v =>
      have hm2d : matchExportListFolder line.data = some v := hm2
      obtain ⟨p, lk⟩ := v
      simp [decodeExportListLine, hm1, hm1d, hm2, hm2d] at h
    | none =>
      have hm2d : matchExportListFolder line.data = none := hm2
      simp [decodeExportListLine, hm1, hm1d, hm2, hm2d] at h
      exact h.symm

theorem exportGo_error_of_bad : ∀ (lines : List String),
    (∃ line ∈ lines, noExportListMatch line) →
    ∃ l, exportGo lines = Except.error (MegaErr.unexpectedExportListLine l) := by
  intro lines
  induction lines with
  | nil =>
    intro h
    obtain ⟨line, hmem, _⟩ := h
    simp at hmem
  | cons a rest ih =>
    intro h
    obtain ⟨line, hmem, hnm⟩ := h
    cases hd : decodeExportListLine a with
    | error e =>
      refine ⟨a, ?_⟩
      rw [decodeExportListLine_error_shape hd] at hd
      simp [exportGo, hd]
    | ok ent =>
      have hrest : line ∈ rest := by
        cases List.mem_cons.mp hmem with
        | inl he =>
          subst he
          rw [decodeExportListLine_nomatch hnm] at hd
          cases hd
        | inr hr => exact hr
      obtain ⟨l, herr⟩ := ih ⟨line, hrest, hnm⟩
      exact ⟨l, by simp [exportGo, hd, herr, Except.map]⟩

/-- C1 counterexample: a success-exit df output whose line matches none of
the five df shapes is decoded without any failure — cmd_df silently keeps
the all-zero defaults instead of raising an unexpected-output error. -/
theorem cmd_df_no_unexpected_failure :
    (matchDfCloud "mystery line".toList = none ∧
      matchDfInbox "mystery line".toList = none ∧
      matchDfBin "mystery line".toList = none ∧
      matchDfTotal "mystery line".toList = none ∧
      matchDfVersions "mystery line".toList = none) ∧
    cmd_df_decode ⟨"mystery line", "", 0⟩ = Except.ok zeroDf :=
  ⟨⟨rfl, rfl, rfl, rfl, rfl⟩, rfl⟩

/-- C1 amended: on a success exit code, cmd_find raises the typed
unexpected-format failure as soon as some nonblank stripped line matches
none of its four shapes, and cmd_export__list raises its typed
unexpected-format failure as soon as some line matches neither of its two
shapes; cmd_df and cmd_du, by contrast, silently skip unmatched lines —
when every line is unmatched they return the all-zero default report and
the empty report respectively. -/
theorem unexpected_line_handling (res : CMDResult) (h0 : res.return_code = 0) :
    ((∃ line ∈ pySplitlines (pyStrip res.stdout),
        pyStrip line ≠ "" ∧ noFindMatch (pyStrip line).toList) →
      ∃ l, cmd_find_decode res = Except.error (MegaErr.unexpectedFindLine l)) ∧
    ((∃ line ∈ pySplitlines (pyStrip res.stdout), noExportListMatch line) →
      ∃ l, cmd_export_list_decode res =
        Except.error (MegaErr.unexpectedExportListLine l)) ∧
    ((∀ line ∈ pySplitlines (pyStrip res.stdout), noDfMatch line) →
      cmd_df_decode res = Except.ok zeroDf) ∧
    ((∀ line ∈ pySplitlines (pyStrip res.stdout), noDuMatch line) →
      cmd_du_decode res = Except.ok ⟨[], 0, 0⟩) := by
  refine ⟨?_, ?_, ?_, ?_⟩
  · intro hbad
    unfold cmd_find_decode
    rw [if_neg (by simp [h0])]
    exact findGo_error_of_bad _ hbad
  · intro hbad
    unfold cmd_export_list_decode
    rw [if_neg (by simp [h0])]
    exact exportGo_error_of_bad _ hbad
  · intro hall
    unfold cmd_df_decode
    rw [if_pos h0]
    exact df_foldlM_skip _ _ hall
  · intro hall
    unfold cmd_du_decode
    rw [if_neg (by simp [h0])]
    rw [du_foldl_skip _ _ hall]

set_option maxRecDepth 8192 in
/-- Witness for the amended C1, exercising all four parts on concrete
outputs. -/
theorem unexpected_line_handling_witness :
    (∃ l, cmd_find_decode ⟨"mystery line", "", 0⟩ =
      Except.error (MegaErr.unexpectedFindLine l)) ∧
    (∃ l, cmd_export_list_decode ⟨"mystery line", "", 0⟩ =
      Except.error (MegaErr.unexpectedExportListLine l)) ∧
    cmd_df_decode ⟨"mystery line", "", 0⟩ = Except.ok zeroDf ∧
    cmd_du_decode ⟨"mystery line", "", 0⟩ = Except.ok ⟨[], 0, 0⟩ := by
  have h := unexpected_line_handling ⟨"mystery line", "", 0⟩ rfl
  refine ⟨h.1 ?_, h.2.1 ?_, h.2.2.1 ?_, h.2.2.2 ?_⟩
  · exact ⟨"mystery line", by decide, by decide, by decide, by decide, by decide, by decide⟩
  · exact ⟨"mystery line", by decide, by decide, by decide⟩
  · intro line hl
    have hls : pySplitlines (pyStrip
        (⟨"mystery line", "", 0⟩ : CMDResult).stdout) = ["mystery line"] := by rfl
    rw [hls] at hl
    simp at hl
    subst hl
    exact ⟨by decide, by decide, by decide, by decide, by decide⟩
  · intro line hl
    have hls : pySplitlines (pyStrip
        (⟨"mystery line", "", 0⟩ : CMDResult).stdout) = ["mystery line"] := by rfl
    rw [hls] at hl
    simp at hl
    subst hl
    exact ⟨by decide, by decide⟩

/-! Parsing lemmas for the disk-free sample-line claim. -/

theorem strToList_append (s t : String) : (s ++ t).toList = s.toList ++ t.toList := rfl

theorem mk_of_toList (s : String) : (⟨s.toList⟩ : String) = s := rfl

theorem takeWhile_append_all {p : Char → Bool} {xs : List Char} (ys : List Char)
    (h : ∀ a ∈ xs, p a = true) :
    (xs ++ ys).takeWhile p = xs ++ ys.takeWhile p := by
  induction xs with
  | nil => simp
  | cons a t ih =>
    have ha : p a = true := h a (List.mem_cons_self a t)
    have ht : ∀ b ∈ t, p b = true := fun b hb => h b (List.mem_cons_of_mem a hb)
    rw [List.cons_append, List.takeWhile_cons, ha]
    simp only [if_true]
    rw [ih ht, List.cons_append]

theorem dropWhile_append_all {p : Char → Bool} {xs : List Char} (ys : List Char)
    (h : ∀ a ∈ xs, p a = true) :
    (xs ++ ys).dropWhile p = ys.dropWhile p := by
  induction xs with
  | nil => simp
  | cons a t ih =>
    have ha : p a = true := h a (List.mem_cons_self a t)
    have ht : ∀ b ∈ t, p b = true := fun b hb => h b (List.mem_cons_of_mem a hb)
    rw [List.cons_append, List.dropWhile_cons, ha]
    simp only [if_true]
    exact ih ht

theorem takeWhile_head_fail {p : Char → Bool} {ys : List Char} {c : Char}
    (h : ys.head? = some c) (hc : p c = false) : ys.takeWhile p = [] := by
  cases ys with
  | nil => rfl
  | cons a t =>
    simp only [List.head?_cons, Option.some.injEq] at h
    subst h
    rw [List.takeWhile_cons, hc]
    simp

theorem span1_append {p : Char → Bool} {xs ys : List Char} {c : Char}
    (hx : xs ≠ []) (hall : ∀ a ∈ xs, p a = true)
    (hy : ys.head? = some c) (hc : p c = false) :
    span1 p (xs ++ ys) = some (xs, ys) := by
  unfold span1
  rw [takeWhile_append_all ys hall, takeWhile_head_fail hy hc,
    dropWhile_append_all ys hall, dropWhile_head_false hy hc, List.append_nil]
  simp [hx]

theorem stripPre_append (pre rest : List Char) :
    stripPre pre (pre ++ rest) = some rest := by
  unfold stripPre
  rw [if_pos, List.drop_left]
  rw [List.isPrefixOf_iff_prefix]
  exact List.prefix_append pre rest

theorem stripPre_none_of_head {pre l : List Char} {c d : Char}
    (hp : pre.head? = some c) (hl : l.head? = some d) (h : ¬ c = d) :
    stripPre pre l = none := by
  cases pre with
  | nil => simp at hp
  | cons a t =>
    cases l with
    | nil => simp at hl
    | cons b u =>
      simp only [List.head?_cons, Option.some.injEq] at hp hl
      subst hp
      subst hl
      unfold stripPre
      rw [if_neg]
      intro hc
      rw [List.isPrefixOf_iff_prefix] at hc
      obtain ⟨z, hz⟩ := hc
      rw [List.cons_append] at hz
      injection hz with h1 _
      exact h h1

theorem rstripChars_eq_self_of_getLast {cs : List Char} :
    ∀ {l : List Char} {x : Char}, l.getLast? = some x → memChars cs x = false →
      rstripChars cs l = l := by
  intro l
  induction l with
  | nil =>
    intro x h hx
    simp at h
  | cons a t ih =>
    intro x h hx
    cases ht : t with
    | nil =>
      subst ht
      simp only [List.getLast?_singleton, Option.some.injEq] at h
      subst h
      rw [rstripChars]
      simp [rstripChars, hx]
    | cons b u =>
      subst ht
      rw [List.getLast?_cons_cons] at h
      have hr : rstripChars cs (b :: u) = b :: u := ih h hx
      rw [rstripChars, hr]
      simp

theorem splitOnChar_no_sep {c : Char} :
    ∀ {l : List Char}, c ∉ l → splitOnChar c l = [l] := by
  intro l
  induction l with
  | nil => intro _; rfl
  | cons a t ih =>
    intro h
    have ha : ¬ a = c := fun hc => h (hc ▸ List.mem_cons_self a t)
    have ht : c ∉ t := fun hc => h (List.mem_cons_of_mem a hc)
    rw [splitOnChar]
    simp only [if_neg ha, ih ht]

theorem isPySpace_replicate {j : Nat} : ∀ a ∈ List.replicate j ' ', isPySpace a = true := by
  intro a ha
  rw [List.eq_of_mem_replicate ha]
  decide

/-- Character-list normal form of the sample line. -/
theorem dfSampleLine_toList (m n k : Nat) :
    (dfSampleLine m n k).toList =
      "USED STORAGE:".toList ++ (List.replicate (m + 1) ' ' ++ ("1000".toList ++
        (List.replicate (n + 1) ' ' ++ ("50.0".toList ++ ("% of".toList ++
        (List.replicate (k + 1) ' ' ++ "2000".toList)))))) := by
  unfold dfSampleLine
  simp only [strToList_append, List.append_assoc]
  have h1 : (spacesStr (m + 1)).toList = List.replicate (m + 1) ' ' := rfl
  have h2 : (spacesStr (n + 1)).toList = List.replicate (n + 1) ' ' := rfl
  have h3 : (spacesStr (k + 1)).toList = List.replicate (k + 1) ' ' := rfl
  have h4 : "50.0% of".toList = "50.0".toList ++ "% of".toList := by decide
  rw [h1, h2, h3, h4, List.append_assoc]

theorem optBind_some {α β : Type} (a : α) (f : α → Option β) :
    (some a >>= f) = f a := rfl

theorem matchDfTotal_sample (m n k : Nat) :
    matchDfTotal (dfSampleLine m n k).toList = some (1000, "50.0", 2000) := by
  rw [dfSampleLine_toList]
  have s1 : span1 isPySpace (List.replicate (m + 1) ' ' ++ ("1000".toList ++
      (List.replicate (n + 1) ' ' ++ ("50.0".toList ++ ("% of".toList ++
      (List.replicate (k + 1) ' ' ++ "2000".toList)))))) =
      some (List.replicate (m + 1) ' ', "1000".toList ++
        (List.replicate (n + 1) ' ' ++ ("50.0".toList ++ ("% of".toList ++
        (List.replicate (k + 1) ' ' ++ "2000".toList))))) :=
    span1_append (by simp) isPySpace_replicate rfl (by decide)
  have s2 : span1 Char.isDigit ("1000".toList ++
      (List.replicate (n + 1) ' ' ++ ("50.0".toList ++ ("% of".toList ++
      (List.replicate (k + 1) ' ' ++ "2000".toList))))) =
      some ("1000".toList, List.replicate (n + 1) ' ' ++ ("50.0".toList ++
        ("% of".toList ++ (List.replicate (k + 1) ' ' ++ "2000".toList)))) :=
    span1_append (by decide) (by decide) rfl (by decide)
  have s3 : span1 isPySpace (List.replicate (n + 1) ' ' ++ ("50.0".toList ++
      ("% of".toList ++ (List.replicate (k + 1) ' ' ++ "2000".toList)))) =
      some (List.replicate (n + 1) ' ', "50.0".toList ++
        ("% of".toList ++ (List.replicate (k + 1) ' ' ++ "2000".toList))) :=
    span1_append (by simp) isPySpace_replicate rfl (by decide)
  have s4 : span1 (fun c => c.isDigit || c = '.') ("50.0".toList ++
      ("% of".toList ++ (List.replicate (k + 1) ' ' ++ "2000".toList))) =
      some ("50.0".toList, "% of".toList ++
        (List.replicate (k + 1) ' ' ++ "2000".toList)) :=
    span1_append (by decide) (by decide) rfl (by decide)
  have s5 : stripPre "% of".toList ("% of".toList ++
      (List.replicate (k + 1) ' ' ++ "2000".toList)) =
      some (List.replicate (k + 1) ' ' ++ "2000".toList) :=
    stripPre_append _ _
  have s6 : span1 isPySpace (List.replicate (k + 1) ' ' ++ "2000".toList) =
      some (List.replicate (k + 1) ' ', "2000".toList) :=
    span1_append (by simp) isPySpace_replicate rfl (by decide)
  have s7 : span1 Char.isDigit "2000".toList = some ("2000".toList, []) := by decide
  unfold matchDfTotal
  simp only [stripPre_append, optBind_some, s1, s2, s3, s4, s5, s6, s7]
  rfl

theorem matchDfArea_none_of_head {lit : String} {l : List Char} {c d : Char}
    (hp : lit.toList.head? = some c) (hl : l.head? = some d) (h : ¬ c = d) :
    matchDfArea lit l = none := by
  unfold matchDfArea
  rw [stripPre_none_of_head hp hl h]
  rfl

theorem matchDfVersions_none_of_head {l : List Char} {d : Char}
    (hl : l.head? = some d) (h : ¬ 'T' = d) : matchDfVersions l = none := by
  unfold matchDfVersions
  rw [stripPre_none_of_head
    (show "Total size taken up by file versions:".toList.head? = some 'T' from rfl) hl h]
  rfl

theorem dfSampleLine_head (m n k : Nat) :
    (dfSampleLine m n k).toList.head? = some 'U' := by
  rw [dfSampleLine_toList]
  rfl

theorem dfSampleLine_getLast (m n k : Nat) :
    (dfSampleLine m n k).toList.getLast? = some '0' := by
  rw [dfSampleLine_toList]
  simp only [List.getLast?_append]
  rfl

theorem dfStep_sample (m n k : Nat) (acc : MEGADiskFreeResult) :
    dfStep acc (dfSampleLine m n k) =
      Except.ok { acc with
        total_used_storage := 1000, used_storage_percentage := 50,
        total_storage := 2000 } := by
  have hhead := dfSampleLine_head m n k
  have hc : matchDfCloud (dfSampleLine m n k).toList = none :=
    matchDfArea_none_of_head rfl hhead (by decide)
  have hi : matchDfInbox (dfSampleLine m n k).toList = none :=
    matchDfArea_none_of_head rfl hhead (by decide)
  have hb : matchDfBin (dfSampleLine m n k).toList = none :=
    matchDfArea_none_of_head rfl hhead (by decide)
  have hv : matchDfVersions (dfSampleLine m n k).toList = none :=
    matchDfVersions_none_of_head hhead (by decide)
  have ht := matchDfTotal_sample m n k
  have hcd : matchDfCloud (dfSampleLine m n k).data = none := hc
  have hid : matchDfInbox (dfSampleLine m n k).data = none := hi
  have hbd : matchDfBin (dfSampleLine m n k).data = none := hb
  have hvd : matchDfVersions (dfSampleLine m n k).data = none := hv
  have htd : matchDfTotal (dfSampleLine m n k).data = some (1000, "50.0", 2000) := ht
  have hq : pyFloat "50.0" = some 50 := by
    have h1 : List.splitOn '.' ['5', '0', '.', '0'] = [['5', '0'], ['0']] := by decide
    have h2 : digitsToNat ['5', '0'] = 50 := rfl
    have h3 : digitsToNat ['0'] = 0 := rfl
    simp [pyFloat, h1, h2, h3]
  simp [dfStep, hc, hi, hb, hv, ht, hcd, hid, hbd, hvd, htd, hq]

theorem append_ne_nil_left {l₁ l₂ : List Char} (h : l₁ ≠ []) : l₁ ++ l₂ ≠ [] := by
  intro hc
  rcases List.append_eq_nil.mp hc with ⟨h1, _⟩
  exact h h1

theorem dfSampleLine_no_newline (m n k : Nat) :
    '\n' ∉ (dfSampleLine m n k).toList := by
  rw [dfSampleLine_toList]
  intro h
  simp only [List.mem_append] at h
  rcases h with h | h | h | h | h | h | h | h
  · revert h; decide
  · exact absurd (List.eq_of_mem_replicate h) (by decide)
  · revert h; decide
  · exact absurd (List.eq_of_mem_replicate h) (by decide)
  · revert h; decide
  · revert h; decide
  · exact absurd (List.eq_of_mem_replicate h) (by decide)
  · revert h; decide

theorem pyStrip_dfSampleLine (m n k : Nat) :
    pyStrip (dfSampleLine m n k) = dfSampleLine m n k := by
  unfold pyStrip
  have h1 : lstripChars pySpaceChars (dfSampleLine m n k).toList =
      (dfSampleLine m n k).toList :=
    dropWhile_head_false (dfSampleLine_head m n k) (by decide)
  rw [h1, rstripChars_eq_self_of_getLast (dfSampleLine_getLast m n k) (by decide),
    mk_of_toList]

theorem pySplitlines_dfSampleLine (m n k : Nat) :
    pySplitlines (dfSampleLine m n k) = [dfSampleLine m n k] := by
  have hne : ¬ (dfSampleLine m n k).toList = [] := by
    intro hc
    have := dfSampleLine_head m n k
    rw [hc] at this
    simp at this
  have hlast : ¬ (dfSampleLine m n k).toList.getLast? = some '\n' := by
    rw [dfSampleLine_getLast]
    decide
  unfold pySplitlines
  rw [if_neg hne, if_neg hlast, splitOnChar_no_sep (dfSampleLine_no_newline m n k)]
  simp [mk_of_toList]

/-- C3: on a success exit code, a stdout consisting of the line
"USED STORAGE: 1000 50.0% of 2000" — with each separating run of spaces of
any positive length — decodes to used=1000, percentage=50.0, total=2000. -/
theorem cmd_df_used_storage_sample (m n k : Nat) (res : CMDResult)
    (h0 : res.return_code = 0) (hout : res.stdout = dfSampleLine m n k) :
    ∃ r, cmd_df_decode res = Except.ok r ∧ r.total_used_storage = 1000 ∧
      r.used_storage_percentage = 50 ∧ r.total_storage = 2000 := by
  refine ⟨{ zeroDf with
    total_used_storage := 1000, used_storage_percentage := 50,
    total_storage := 2000 }, ?_, rfl, rfl, rfl⟩
  unfold cmd_df_decode
  rw [if_pos h0, hout, pyStrip_dfSampleLine, pySplitlines_dfSampleLine]
  simp only [List.foldlM_cons, List.foldlM_nil, dfStep_sample]
  rfl

set_option maxRecDepth 8192 in
/-- Witness for C3 at single separating spaces. -/
theorem cmd_df_used_storage_sample_witness :
    ∃ r, cmd_df_decode ⟨"USED STORAGE: 1000 50.0% of 2000", "", 0⟩ = Except.ok r ∧
      r.total_used_storage = 1000 ∧ r.used_storage_percentage = 50 ∧
      r.total_storage = 2000 :=
  cmd_df_used_storage_sample 0 0 0 ⟨"USED STORAGE: 1000 50.0% of 2000", "", 0⟩
    rfl (by decide)

end PyMEGAcmd
